import Mathlib

/-!
Shallow embedding of the pyGSTi iterative long-sequence GST estimation core.

The repository's own files are tutorial/example notebooks narrating the use of
the underlying library; the library functions they call (`GateSet.to_vector`,
`GateSet.probs`, `GateSet.transform`, `do_iterative_mlgst`,
`gaugeopt_to_target`, the objective functions, and the degrees-of-freedom
accounting) are therefore modelled here from the specification's descriptions,
with the notebooks' recorded outputs (printed reports and warnings) used as
additional evidence of behavior.  Gate-set data is embedded over `ℚ`
(exact arithmetic; the floating tolerances 1e-8/1e-10 are implied by exact
equalities), and the Poisson-picture log-likelihood term, which needs a real
logarithm, over `ℝ`.
-/

open scoped Matrix

namespace PyGSTi

/-- Length-`n` real vectors (spec: length-`d²` vectors over the chosen basis),
embedded over `ℚ`. -/
abbrev Vec (n : ℕ) := Fin n → ℚ

/-- `n × n` real matrices (spec: `d²×d²` superoperator matrices), over `ℚ`. -/
abbrev Mat (n : ℕ) := Matrix (Fin n) (Fin n) ℚ

/-- Serialize a vector to a flat parameter list (one parameter per element). -/
def vecToList {n : ℕ} (v : Vec n) : List ℚ :=
  List.ofFn v

/-- Rebuild a vector from a flat parameter list (element `i` is parameter `i`). -/
def vecOfList (n : ℕ) (l : List ℚ) : Vec n :=
  fun i => l.getD i.val 0

theorem vecToList_length {n : ℕ} (v : Vec n) : (vecToList v).length = n := by
  simp [vecToList]

theorem vecToList_getD {n : ℕ} (v : Vec n) (i : Fin n) :
    (vecToList v).getD i.val 0 = v i := by
  unfold vecToList
  rw [List.getD_eq_getElem?_getD, List.getElem?_ofFn, List.ofFnNthVal, dif_pos i.isLt]
  rfl

theorem vecOfList_vecToList {n : ℕ} (v : Vec n) : vecOfList n (vecToList v) = v := by
  funext i
  show (vecToList v).getD i.val 0 = v i
  exact vecToList_getD v i

/-- Serialize a matrix to a flat parameter list, row major (spec: a fully
parameterized gate has one parameter per matrix element). -/
def matToList {n : ℕ} (m : Mat n) : List ℚ :=
  (List.ofFn (fun i => vecToList (m i))).flatten

/-- Rebuild a matrix from a row-major flat parameter list. -/
def matOfList (n : ℕ) (l : List ℚ) : Mat n :=
  Matrix.of fun i j => l.getD (i.val * n + j.val) 0

theorem matToList_length {n : ℕ} (m : Mat n) : (matToList m).length = n * n := by
  simp [matToList, List.length_flatten, Function.comp_def, vecToList_length,
    List.map_ofFn, Nat.mul_comm]

theorem flatten_getD_uniform {n : ℕ} (rows : List (List ℚ))
    (hlen : ∀ r ∈ rows, r.length = n) (i j : ℕ) (hj : j < n) :
    rows.flatten.getD (i * n + j) 0 = (rows.getD i []).getD j 0 := by
  induction rows generalizing i with
  | nil => simp
  | cons r rs ih =>
    have hr : r.length = n := hlen r (List.mem_cons_self r rs)
    cases i with
    | zero =>
      simp only [Nat.zero_mul, Nat.zero_add, List.flatten_cons, List.getD_cons_zero]
      rw [List.getD_eq_getElem?_getD, List.getElem?_append_left (by omega),
        ← List.getD_eq_getElem?_getD]
    | succ k =>
      have harith : (k + 1) * n + j = r.length + (k * n + j) := by
        rw [hr]; ring
      simp only [List.flatten_cons, List.getD_cons_succ]
      rw [List.getD_eq_getElem?_getD, harith, List.getElem?_append_right (by omega),
        Nat.add_sub_cancel_left, ← List.getD_eq_getElem?_getD]
      exact ih (fun r hmem => hlen r (List.mem_cons_of_mem _ hmem)) k

theorem matOfList_matToList {n : ℕ} (m : Mat n) : matOfList n (matToList m) = m := by
  funext i j
  show (matToList m).getD (i.val * n + j.val) 0 = m i j
  rw [matToList, flatten_getD_uniform _ (by simp [vecToList_length]) i.val j.val j.isLt]
  have : (List.ofFn (fun i => vecToList (m i))).getD i.val [] = vecToList (m i) := by
    rw [List.getD_eq_getElem?_getD]
    simp [List.getElem?_ofFn, i.isLt]
  rw [this, vecToList_getD]

theorem matToList_getD {n : ℕ} (m : Mat n) (i j : Fin n) :
    (matToList m).getD (i.val * n + j.val) 0 = m i j := by
  have h := congrFun (congrFun (matOfList_matToList m) i) j
  exact h

/-- Modelled from the spec: a parameterized SPAM vector
(`FullyParameterizedSPAMVec` / `TPParameterizedSPAMVec` in the source library,
which is not under src/).  A full vector has one parameter per element; a
TP vector's first element is fixed at construction (to `√d` in the source)
and is never touched by `from_vector`. -/
inductive PSpamVec (n : ℕ) where
  | full (v : Vec n)
  | tp (v : Vec n)

namespace PSpamVec

/-- The plain length-`d²` vector this parameterized SPAM vector represents. -/
def vec {n : ℕ} : PSpamVec n → Vec n
  | .full v => v
  | .tp v => v

/-- Number of free real parameters owned by this SPAM vector. -/
def num_params {n : ℕ} : PSpamVec n → ℕ
  | .full _ => n
  | .tp _ => n - 1

/-- Serialize this SPAM vector's free parameters (TP omits the fixed first
element). -/
def to_vector {n : ℕ} : PSpamVec n → List ℚ
  | .full v => vecToList v
  | .tp v => (vecToList v).drop 1

/-- Rebuild this SPAM vector from a flat parameter list; the TP policy keeps
the fixed first element and reads the remaining elements from the list. -/
def from_vector {n : ℕ} : PSpamVec n → List ℚ → PSpamVec n
  | .full _, l => .full (vecOfList n l)
  | .tp v, l => .tp (fun i => if i.val = 0 then v i else l.getD (i.val - 1) 0)

theorem spam_to_vector_length {n : ℕ} (s : PSpamVec n) :
    s.to_vector.length = s.num_params := by
  cases s with
  | full v => simp [to_vector, num_params, vecToList_length]
  | tp v => simp [to_vector, num_params, vecToList_length]

theorem spam_from_vector_to_vector {n : ℕ} (s : PSpamVec n) :
    s.from_vector s.to_vector = s := by
  cases s with
  | full v => simp [to_vector, from_vector, vecOfList_vecToList]
  | tp v =>
    simp only [to_vector, from_vector]
    congr 1
    funext i
    by_cases h0 : i.val = 0
    · simp [h0]
    · rw [if_neg h0, List.getD_eq_getElem?_getD, List.getElem?_drop,
        ← List.getD_eq_getElem?_getD]
      have harith : 1 + (i.val - 1) = i.val := by omega
      rw [harith, vecToList_getD]

end PSpamVec

/-- Modelled from the spec: the Lindblad/CPTP parameter-to-matrix map of the
source's `LindbladianParameterizedGate` is not under src/ and the spec fixes
only that the matrix is a deterministic function of the stored parameter
vector; a concrete deterministic unflattening stands in for it (no claim
depends on its specific form). -/
def cptpBuild (n : ℕ) (ps : List ℚ) : Mat n :=
  matOfList n ps

/-- Modelled from the spec: a parameterized operation ("gate").  The
parameterization policy (`FullyParameterizedGate`, `TPParameterizedGate`,
`LindbladianParameterizedGate` in the source library, not under src/)
determines how many free real parameters it owns and how they map to its
`d²×d²` matrix; TP fixes the first row to `[1,0,...,0]`. -/
inductive PGate (n : ℕ) where
  | full (m : Mat n)
  | tp (m : Mat n)
  | cptp (params : List ℚ)

namespace PGate

/-- The plain `d²×d²` superoperator matrix this parameterized gate represents. -/
def matrix {n : ℕ} : PGate n → Mat n
  | .full m => m
  | .tp m => m
  | .cptp ps => cptpBuild n ps

/-- Number of free real parameters owned by this gate. -/
def num_params {n : ℕ} : PGate n → ℕ
  | .full _ => n * n
  | .tp _ => n * n - n
  | .cptp ps => ps.length

/-- Serialize this gate's free parameters: full takes every matrix element
(row major), TP omits the fixed first row, CPTP returns its stored
Lindblad-form parameters. -/
def to_vector {n : ℕ} : PGate n → List ℚ
  | .full m => matToList m
  | .tp m => (matToList m).drop n
  | .cptp ps => ps

/-- Rebuild this gate from a flat parameter list.  The TP policy fixes the
first row to `[1,0,...,0]` (spec: "TP fixes the first row to [1,0,...,0]")
and reads the remaining rows from the list. -/
def from_vector {n : ℕ} : PGate n → List ℚ → PGate n
  | .full _, l => .full (matOfList n l)
  | .tp _, l =>
      .tp (Matrix.of fun i j =>
        if i.val = 0 then (if j.val = 0 then 1 else 0)
        else l.getD ((i.val - 1) * n + j.val) 0)
  | .cptp _, l => .cptp l

/-- Validity enforced at construction by the source library: a
TP-parameterized gate's matrix has first row exactly `[1,0,...,0]` (the
notebook shows construction failing otherwise: "Cannot set
TPParameterizedGate: invalid form for 1st row!"). -/
def wf {n : ℕ} : PGate n → Prop
  | .tp m => ∀ i j : Fin n, i.val = 0 → m i j = (if j.val = 0 then 1 else 0)
  | _ => True

instance wf_decidable {n : ℕ} (g : PGate n) : Decidable g.wf := by
  cases g with
  | full m => exact isTrue trivial
  | tp m => exact inferInstanceAs (Decidable (∀ _ _, _ → _))
  | cptp ps => exact isTrue trivial

theorem gate_to_vector_length {n : ℕ} (g : PGate n) :
    g.to_vector.length = g.num_params := by
  cases g with
  | full m => simp [to_vector, num_params, matToList_length]
  | tp m => simp [to_vector, num_params, matToList_length]
  | cptp ps => rfl

theorem gate_from_vector_to_vector {n : ℕ} (g : PGate n) (hwf : g.wf) :
    g.from_vector g.to_vector = g := by
  cases g with
  | full m => simp [to_vector, from_vector, matOfList_matToList]
  | tp m =>
    simp only [to_vector, from_vector]
    congr 1
    funext i j
    show (if i.val = 0 then (if j.val = 0 then 1 else 0)
      else ((matToList m).drop n).getD ((i.val - 1) * n + j.val) 0) = m i j
    by_cases h0 : i.val = 0
    · rw [if_pos h0, (hwf i j h0)]
    · rw [if_neg h0, List.getD_eq_getElem?_getD, List.getElem?_drop,
        ← List.getD_eq_getElem?_getD]
      have harith : n + ((i.val - 1) * n + j.val) = i.val * n + j.val := by
        have hi : 1 ≤ i.val := Nat.one_le_iff_ne_zero.mpr h0
        calc n + ((i.val - 1) * n + j.val) = (1 + (i.val - 1)) * n + j.val := by ring
        _ = i.val * n + j.val := by rw [Nat.add_sub_cancel' hi]
      rw [harith, matToList_getD]
  | cptp ps => rfl

end PGate

/-- Modelled from the spec: a `GateSet` (Model) — named collections of state
preparations, POVMs (each a collection of effect vectors), and gates, over a
vectorized-density-matrix space of dimension `n = d²`, together with the
basis's identity-like vector (the vector every POVM's effects must sum to).
The source library's `GateSet` class is not under src/; members are stored
here as ordered lists, which is all the claims need. -/
structure GateSet (n : ℕ) where
  ident : Vec n
  preps : List (PSpamVec n)
  povms : List (List (PSpamVec n))
  gates : List (PGate n)

namespace GateSet

/-- Total free parameters of a POVM: the sum over its effect vectors. -/
def povmNP {n : ℕ} (p : List (PSpamVec n)) : ℕ :=
  (p.map PSpamVec.num_params).sum

/-- The parameter vector of a POVM: its effects' parameters, in order. -/
def povmToList {n : ℕ} (p : List (PSpamVec n)) : List ℚ :=
  (p.map PSpamVec.to_vector).flatten

/-- Total free parameters owned by the state preparations. -/
def prepsNP {n : ℕ} (gs : GateSet n) : ℕ :=
  (gs.preps.map PSpamVec.num_params).sum

/-- Total free parameters owned by the POVMs. -/
def povmsNP {n : ℕ} (gs : GateSet n) : ℕ :=
  (gs.povms.map povmNP).sum

/-- Total free parameters owned by the gates. -/
def gatesNP {n : ℕ} (gs : GateSet n) : ℕ :=
  (gs.gates.map PGate.num_params).sum

/-- `num_params`: total free real parameters across all constituent
operations and vectors (spec §4.1). -/
def num_params {n : ℕ} (gs : GateSet n) : ℕ :=
  gs.prepsNP + gs.povmsNP + gs.gatesNP

/-- `to_vector`: the full parameter vector, in the fixed deterministic
layout — state preparations, then POVMs/measurements, then gates
(spec §3 and the Gate Sets tutorial: "1) state preparation vectors,
2) measurement vectors, 3) gates"). -/
def to_vector {n : ℕ} (gs : GateSet n) : List ℚ :=
  (gs.preps.map PSpamVec.to_vector).flatten ++
    (gs.povms.map povmToList).flatten ++
    (gs.gates.map PGate.to_vector).flatten

/-- Rebuild a list of members from a flat parameter list: each member consumes
its own `num_params`-long slice, in order (how the source's
`GateSet.from_vector` distributes the vector over its members). -/
def fromVectorList {α : Type} (np : α → ℕ) (fv : α → List ℚ → α) :
    List α → List ℚ → List α
  | [], _ => []
  | a :: as, l => fv a (l.take (np a)) :: fromVectorList np fv as (l.drop (np a))

/-- Rebuild a POVM from its slice of the parameter vector. -/
def povmFromList {n : ℕ} (p : List (PSpamVec n)) (l : List ℚ) : List (PSpamVec n) :=
  fromVectorList PSpamVec.num_params PSpamVec.from_vector p l

/-- `from_vector`: rebuild the whole model from a flat parameter vector using
the fixed layout (preparations, then POVMs, then gates). -/
def from_vector {n : ℕ} (gs : GateSet n) (l : List ℚ) : GateSet n :=
  { ident := gs.ident
    preps := fromVectorList PSpamVec.num_params PSpamVec.from_vector gs.preps
      (l.take gs.prepsNP)
    povms := fromVectorList povmNP povmFromList gs.povms
      ((l.drop gs.prepsNP).take gs.povmsNP)
    gates := fromVectorList PGate.num_params PGate.from_vector gs.gates
      ((l.drop gs.prepsNP).drop gs.povmsNP) }

/-- A valid model: every TP-parameterized gate actually satisfies the
first-row constraint its constructor enforces. -/
def wfParams {n : ℕ} (gs : GateSet n) : Prop :=
  ∀ g ∈ gs.gates, g.wf

instance wfParams_decidable {n : ℕ} (gs : GateSet n) : Decidable gs.wfParams :=
  List.decidableBAll _ gs.gates

theorem fromVectorList_roundtrip {α : Type} (np : α → ℕ) (fv : α → List ℚ → α)
    (tv : α → List ℚ) (as : List α) (rest : List ℚ)
    (hlen : ∀ a ∈ as, (tv a).length = np a)
    (hrt : ∀ a ∈ as, fv a (tv a) = a) :
    fromVectorList np fv as ((as.map tv).flatten ++ rest) = as := by
  induction as with
  | nil => rfl
  | cons a as ih =>
    have ha : a ∈ a :: as := List.mem_cons_self a as
    have hl : (tv a).length = np a := hlen a ha
    simp only [List.map_cons, List.flatten_cons, List.append_assoc, fromVectorList]
    rw [← hl, List.take_left, List.drop_left, hrt a ha,
      ih (fun x hx => hlen x (List.mem_cons_of_mem _ hx))
        (fun x hx => hrt x (List.mem_cons_of_mem _ hx))]

theorem povmToList_length {n : ℕ} (p : List (PSpamVec n)) :
    (povmToList p).length = povmNP p := by
  unfold povmToList povmNP
  rw [List.length_flatten, List.map_map]
  congr 1
  exact List.map_congr_left (fun s _ => PSpamVec.spam_to_vector_length s)

theorem povmFromList_roundtrip {n : ℕ} (p : List (PSpamVec n)) :
    povmFromList p (povmToList p) = p := by
  have h := fromVectorList_roundtrip PSpamVec.num_params PSpamVec.from_vector
    PSpamVec.to_vector p [] (fun a _ => PSpamVec.spam_to_vector_length a)
    (fun a _ => PSpamVec.spam_from_vector_to_vector a)
  rw [List.append_nil] at h
  exact h

theorem flatten_map_length {α : Type} (tv : α → List ℚ) (np : α → ℕ) (as : List α)
    (hlen : ∀ a ∈ as, (tv a).length = np a) :
    ((as.map tv).flatten).length = (as.map np).sum := by
  rw [List.length_flatten, List.map_map]
  congr 1
  exact List.map_congr_left hlen

/-- Round trip at full-model level: `from_vector (to_vector M) = M` for every
valid model (spec §3 invariant and §8 "Round-trip" property). -/
theorem model_from_vector_to_vector {n : ℕ} (gs : GateSet n) (hwf : gs.wfParams) :
    gs.from_vector gs.to_vector = gs := by
  have hP : ((gs.preps.map PSpamVec.to_vector).flatten).length = gs.prepsNP :=
    flatten_map_length _ _ _ (fun a _ => PSpamVec.spam_to_vector_length a)
  have hM : ((gs.povms.map povmToList).flatten).length = gs.povmsNP :=
    flatten_map_length _ _ _ (fun a _ => povmToList_length a)
  unfold from_vector to_vector
  rw [List.append_assoc]
  have htake1 : (((gs.preps.map PSpamVec.to_vector).flatten) ++
      ((gs.povms.map povmToList).flatten ++ (gs.gates.map PGate.to_vector).flatten)).take
        gs.prepsNP = (gs.preps.map PSpamVec.to_vector).flatten := by
    rw [← hP, List.take_left]
  have hdrop1 : (((gs.preps.map PSpamVec.to_vector).flatten) ++
      ((gs.povms.map povmToList).flatten ++ (gs.gates.map PGate.to_vector).flatten)).drop
        gs.prepsNP = (gs.povms.map povmToList).flatten ++
          (gs.gates.map PGate.to_vector).flatten := by
    rw [← hP, List.drop_left]
  have htake2 : ((gs.povms.map povmToList).flatten ++
      (gs.gates.map PGate.to_vector).flatten).take gs.povmsNP =
        (gs.povms.map povmToList).flatten := by
    rw [← hM, List.take_left]
  have hdrop2 : ((gs.povms.map povmToList).flatten ++
      (gs.gates.map PGate.to_vector).flatten).drop gs.povmsNP =
        (gs.gates.map PGate.to_vector).flatten := by
    rw [← hM, List.drop_left]
  rw [htake1, hdrop1, htake2, hdrop2]
  have hpreps : fromVectorList PSpamVec.num_params PSpamVec.from_vector gs.preps
      ((gs.preps.map PSpamVec.to_vector).flatten) = gs.preps := by
    have h := fromVectorList_roundtrip PSpamVec.num_params PSpamVec.from_vector
      PSpamVec.to_vector gs.preps [] (fun a _ => PSpamVec.spam_to_vector_length a)
      (fun a _ => PSpamVec.spam_from_vector_to_vector a)
    rwa [List.append_nil] at h
  have hpovms : fromVectorList povmNP povmFromList gs.povms
      ((gs.povms.map povmToList).flatten) = gs.povms := by
    have h := fromVectorList_roundtrip povmNP povmFromList povmToList
      gs.povms [] (fun a _ => povmToList_length a)
      (fun a _ => povmFromList_roundtrip a)
    rwa [List.append_nil] at h
  have hgates : fromVectorList PGate.num_params PGate.from_vector gs.gates
      ((gs.gates.map PGate.to_vector).flatten) = gs.gates := by
    have h := fromVectorList_roundtrip PGate.num_params PGate.from_vector
      PGate.to_vector gs.gates [] (fun a _ => PGate.gate_to_vector_length a)
      (fun a ha => PGate.gate_from_vector_to_vector a (hwf a ha))
    rwa [List.append_nil] at h
  rw [hpreps, hpovms, hgates]

/-- The gate matrix attached to a gate label (labels are embedded as indices
into the gate list); an unused label yields the identity map (the claims never
exercise missing labels, and the identity is neutral for them). -/
def gateMat {n : ℕ} (gs : GateSet n) (l : ℕ) : Mat n :=
  (gs.gates[l]?.map PGate.matrix).getD 1

/-- The product of a gate string's matrices, applied in temporal order: the
string `(g₁, g₂, …)` yields `… · G(g₂) · G(g₁)` (the source's
`GateSet.product`). -/
def seqProduct {n : ℕ} (gs : GateSet n) (s : List ℕ) : Mat n :=
  s.foldl (fun P l => gateMat gs l * P) 1

/-- The state-preparation vector at index `i` (default `rho0` is index 0);
missing indices give the zero vector. -/
def prepVec {n : ℕ} (gs : GateSet n) (i : ℕ) : Vec n :=
  (gs.preps[i]?.map PSpamVec.vec).getD 0

/-- The effect vectors of the POVM at index `k` (default `Mdefault` is
index 0). -/
def povmEffects {n : ℕ} (gs : GateSet n) (k : ℕ) : List (PSpamVec n) :=
  gs.povms[k]?.getD []

/-- The outcome probabilities of gate string `s` for prep `i` and POVM `k`:
one entry `E_o · (∏ gates) · ρ` per outcome `o` of the POVM (the source's
`GateSet.probs`). -/
def probList {n : ℕ} (gs : GateSet n) (i k : ℕ) (s : List ℕ) : List ℚ :=
  (povmEffects gs k).map (fun E => E.vec ⬝ᵥ (seqProduct gs s *ᵥ prepVec gs i))

/-- A well-formed model: each POVM's effects sum to the identity-like vector
(spec §3 invariant), each preparation has unit trace against it, and each
gate preserves it (the superoperator statement of trace preservation). -/
def WellFormed {n : ℕ} (gs : GateSet n) : Prop :=
  (∀ p ∈ gs.povms, (p.map PSpamVec.vec).sum = gs.ident) ∧
    (∀ r ∈ gs.preps, gs.ident ⬝ᵥ r.vec = 1) ∧
    (∀ g ∈ gs.gates, Matrix.vecMul gs.ident g.matrix = gs.ident)

instance wellFormed_decidable {n : ℕ} (gs : GateSet n) : Decidable (WellFormed gs) := by
  unfold WellFormed
  infer_instance

theorem vecMul_gateMat {n : ℕ} (gs : GateSet n) (hwf : WellFormed gs) (l : ℕ) :
    Matrix.vecMul gs.ident (gateMat gs l) = gs.ident := by
  unfold gateMat
  cases hg : gs.gates[l]? with
  | none => simp
  | some g =>
    simp only [hg, Option.map_some', Option.getD_some]
    obtain ⟨hlt, rfl⟩ := List.getElem?_eq_some.mp hg
    exact hwf.2.2 _ (gs.gates.getElem_mem hlt)

theorem vecMul_seqProduct {n : ℕ} (gs : GateSet n) (hwf : WellFormed gs) (s : List ℕ) :
    Matrix.vecMul gs.ident (seqProduct gs s) = gs.ident := by
  suffices h : ∀ P : Mat n, Matrix.vecMul gs.ident
      (s.foldl (fun P l => gateMat gs l * P) P) = Matrix.vecMul gs.ident P by
    have := h 1
    rwa [Matrix.vecMul_one] at this
  induction s with
  | nil => intro P; rfl
  | cons l rest ih =>
    intro P
    show Matrix.vecMul gs.ident (rest.foldl _ (gateMat gs l * P)) = _
    rw [ih (gateMat gs l * P), ← Matrix.vecMul_vecMul, vecMul_gateMat gs hwf l]

/-- Probability conservation for well-formed models: the outcome
probabilities of any gate string sum to exactly 1 over each POVM's outcome
set. -/
theorem probList_sum_eq_one {n : ℕ} (gs : GateSet n) (hwf : WellFormed gs)
    (i k : ℕ) (s : List ℕ) (hprep : i < gs.preps.length) (hpovm : k < gs.povms.length) :
    (probList gs i k s).sum = 1 := by
  have heff : povmEffects gs k = gs.povms[k] := by
    unfold povmEffects
    rw [List.getElem?_eq_getElem hpovm, Option.getD_some]
  have hsum : ∀ (es : List (PSpamVec n)) (w : Vec n),
      ((es.map (fun E => E.vec ⬝ᵥ w)).sum) = ((es.map PSpamVec.vec).sum) ⬝ᵥ w := by
    intro es w
    induction es with
    | nil => simp
    | cons a t ih => simp [ih, Matrix.add_dotProduct]
  unfold probList
  rw [heff, hsum, hwf.1 gs.povms[k] (gs.povms.getElem_mem hpovm),
    Matrix.dotProduct_mulVec, vecMul_seqProduct gs hwf s]
  have hρ : prepVec gs i = (gs.preps[i]).vec := by
    unfold prepVec
    rw [List.getElem?_eq_getElem hprep, Option.map_some', Option.getD_some]
  rw [hρ]
  exact hwf.2.1 gs.preps[i] (gs.preps.getElem_mem hprep)

end GateSet

/-- Modelled from the spec: an element of a model's gauge group
(the source's `FullGaugeGroupElement`, not under src/, stores the
transformation matrix together with its inverse). -/
structure GaugeElem (n : ℕ) where
  S : Mat n
  Sinv : Mat n
  inv_right : S * Sinv = 1
  inv_left : Sinv * S = 1

/-- Modelled from the spec: `transform(S)` returns a new Model in which every
gate `G` becomes `S·G·S⁻¹`, every preparation `ρ` becomes `S·ρ`, and every
effect `E` becomes `S⁻ᵗ·E` (spec §4.1). -/
def GateSet.transform {n : ℕ} (gs : GateSet n) (e : GaugeElem n) : GateSet n :=
  { ident := gs.ident
    preps := gs.preps.map (fun r => .full (e.S *ᵥ r.vec))
    povms := gs.povms.map (List.map (fun E => .full (e.Sinv.transpose *ᵥ E.vec)))
    gates := gs.gates.map (fun g => .full (e.S * g.matrix * e.Sinv)) }

namespace GateSet

theorem gateMat_transform {n : ℕ} (gs : GateSet n) (e : GaugeElem n) (l : ℕ) :
    gateMat (gs.transform e) l = e.S * gateMat gs l * e.Sinv := by
  unfold gateMat transform
  cases hg : gs.gates[l]? with
  | none =>
    simp only [List.getElem?_map, hg, Option.map_none', Option.getD_none]
    rw [mul_one, e.inv_right]
  | some g =>
    simp only [List.getElem?_map, hg, Option.map_some', Option.getD_some, PGate.matrix]

theorem prepVec_transform {n : ℕ} (gs : GateSet n) (e : GaugeElem n) (i : ℕ) :
    prepVec (gs.transform e) i = e.S *ᵥ prepVec gs i := by
  unfold prepVec transform
  cases hg : gs.preps[i]? with
  | none =>
    simp only [List.getElem?_map, hg, Option.map_none', Option.getD_none]
    rw [Matrix.mulVec_zero]
  | some r =>
    simp only [List.getElem?_map, hg, Option.map_some', Option.getD_some, PSpamVec.vec]

theorem seqProduct_transform {n : ℕ} (gs : GateSet n) (e : GaugeElem n) (s : List ℕ) :
    seqProduct (gs.transform e) s = e.S * seqProduct gs s * e.Sinv := by
  suffices h : ∀ P : Mat n, s.foldl (fun P l => gateMat (gs.transform e) l * P)
      (e.S * P * e.Sinv) = e.S * (s.foldl (fun P l => gateMat gs l * P) P) * e.Sinv by
    have h1 := h 1
    rw [mul_one, e.inv_right] at h1
    exact h1
  induction s with
  | nil => intro P; rfl
  | cons l rest ih =>
    intro P
    show rest.foldl _ (gateMat (gs.transform e) l * (e.S * P * e.Sinv)) = _
    have hstep : gateMat (gs.transform e) l * (e.S * P * e.Sinv) =
        e.S * (gateMat gs l * P) * e.Sinv := by
      rw [gateMat_transform]
      calc e.S * gateMat gs l * e.Sinv * (e.S * P * e.Sinv)
          = e.S * gateMat gs l * (e.Sinv * e.S) * P * e.Sinv := by
            simp only [Matrix.mul_assoc]
        _ = e.S * (gateMat gs l * P) * e.Sinv := by
            rw [e.inv_left, Matrix.mul_one]
            simp only [Matrix.mul_assoc]
    rw [hstep]
    exact ih (gateMat gs l * P)

/-- Gauge invariance, exactly: each outcome probability of any gate string is
unchanged by a gauge transformation. -/
theorem probList_transform {n : ℕ} (gs : GateSet n) (e : GaugeElem n)
    (i k : ℕ) (s : List ℕ) :
    probList (gs.transform e) i k s = probList gs i k s := by
  have heff : povmEffects (gs.transform e) k =
      (povmEffects gs k).map (fun E => .full (e.Sinv.transpose *ᵥ E.vec)) := by
    unfold povmEffects transform
    cases hg : gs.povms[k]? with
    | none => simp only [List.getElem?_map, hg, Option.map_none', Option.getD_none,
        List.map_nil]
    | some p => simp only [List.getElem?_map, hg, Option.map_some', Option.getD_some]
  unfold probList
  rw [heff, List.map_map, seqProduct_transform, prepVec_transform]
  apply List.map_congr_left
  intro E _
  show (e.Sinv.transpose *ᵥ E.vec) ⬝ᵥ ((e.S * seqProduct gs s * e.Sinv) *ᵥ (e.S *ᵥ prepVec gs i)) =
    E.vec ⬝ᵥ (seqProduct gs s *ᵥ prepVec gs i)
  rw [Matrix.mulVec_mulVec, Matrix.mulVec_transpose]
  rw [Matrix.dotProduct_mulVec, Matrix.vecMul_vecMul]
  rw [Matrix.dotProduct_mulVec]
  congr 1
  calc Matrix.vecMul E.vec (e.Sinv * (e.S * seqProduct gs s * e.Sinv * e.S))
      = Matrix.vecMul E.vec ((e.Sinv * e.S) * seqProduct gs s * (e.Sinv * e.S)) := by
        rw [show e.Sinv * (e.S * seqProduct gs s * e.Sinv * e.S) =
          (e.Sinv * e.S) * seqProduct gs s * (e.Sinv * e.S) by
            simp only [Matrix.mul_assoc]]
    _ = Matrix.vecMul E.vec (seqProduct gs s) := by
        rw [e.inv_left, Matrix.one_mul, Matrix.mul_one]

end GateSet

/-- Modelled from the spec (§4.3): the chi-squared term for one
(sequence, outcome): `N·(f−p)²/p` with `f = n/N` and the predicted
probability clipped to the positive floor `minProbClip` in the denominator;
a zero total count contributes zero (spec: "sequences/outcomes with zero
total count contribute zero"), so the division-by-zero branch is never
entered for `N = 0`. -/
def chi2Term (minProbClip : ℚ) (N nCount : ℕ) (p : ℚ) : ℚ :=
  if N = 0 then 0
  else (N : ℚ) * ((nCount : ℚ) / (N : ℚ) - p) ^ 2 / max p minProbClip

/-- The chi-squared contribution of one sequence: the sum of its per-outcome
terms, with `N` the sequence's total count (the sum of its outcome counts). -/
def chi2SeqContribution (minProbClip : ℚ) (counts : List ℕ) (ps : List ℚ) : ℚ :=
  ((counts.zip ps).map (fun c => chi2Term minProbClip counts.sum c.1 c.2)).sum

/-- `f·ln(f/x)` with the spec's convention that the value is `0` when
`f = 0`. -/
noncomputable def flogf (f x : ℝ) : ℝ :=
  if f = 0 then 0 else f * Real.log (f / x)

/-- Modelled from the spec (§4.3): the Poisson-picture log-likelihood term
`2N·[f·ln(f/p) − (f−p)]` for one (sequence, outcome), with a smooth quadratic
extrapolation below the probability floor `radius` (the spec does not give
the extrapolation's coefficients; they are chosen to match the value and
first derivative at the floor, which is what "smooth" and "keeps the
function and its derivative finite" require).  A zero total count
contributes zero, so the log-of-zero branch is never entered for `N = 0`. -/
noncomputable def loglTerm (radius : ℝ) (N nCount : ℕ) (p : ℝ) : ℝ :=
  if N = 0 then 0
  else
    if radius ≤ p then
      2 * (N : ℝ) * (flogf ((nCount : ℝ) / (N : ℝ)) p - ((nCount : ℝ) / (N : ℝ) - p))
    else
      2 * (N : ℝ) *
        ((flogf ((nCount : ℝ) / (N : ℝ)) radius - ((nCount : ℝ) / (N : ℝ) - radius)) +
          (1 - ((nCount : ℝ) / (N : ℝ)) / radius) * (p - radius) +
          (((nCount : ℝ) / (N : ℝ)) / (2 * radius ^ 2)) * (p - radius) ^ 2)

/-- The log-likelihood contribution of one sequence: the sum of its
per-outcome terms, with `N` the sequence's total count. -/
noncomputable def loglSeqContribution (radius : ℝ) (counts : List ℕ) (ps : List ℝ) : ℝ :=
  ((counts.zip ps).map (fun c => loglTerm radius counts.sum c.1 c.2)).sum

/-- Modelled from the spec (§4.5) and the warning recorded in src
("WARNING: MLGST failed to improve logl: retaining chi2-objective estimate"):
the iterative MLGST driver.  It runs the chi-squared optimizer at every
iteration, feeding each result to the next iteration; at the final iteration
it re-optimizes the chi-squared result under the log-likelihood objective and
keeps the ML result, unless the ML pass fails to improve the log-likelihood
(new log-likelihood at most the old one, mirroring the warning's "failed to
improve"), in which case the chi-squared estimate is retained and a warning
is emitted.
The two optimizers and the log-likelihood evaluator are oracle inputs (the
source's Levenberg-Marquardt solver operates on floats and is not under
src/); `σ` is the type of per-iteration gate-string lists and `θ` the type of
model parameter vectors. -/
def do_iterative_mlgst {σ θ : Type} (chi2Opt : σ → θ → θ) (mlOpt : σ → θ → θ)
    (logl : σ → θ → ℚ) : List σ → θ → θ × List String
  | [], g => (g, [])
  | [L], g =>
      let gChi2 := chi2Opt L g
      let gML := mlOpt L gChi2
      if logl L gML ≤ logl L gChi2 then
        (gChi2, ["MLGST failed to improve logl: retaining chi2-objective estimate"])
      else (gML, [])
  | L :: L2 :: rest, g =>
      do_iterative_mlgst chi2Opt mlOpt logl (L2 :: rest) (chi2Opt L g)

/-- Modelled from the spec (§4.5, §7): the robust-data-scaling pass.  It
re-runs the final optimization on rescaled counts (the re-optimizer is an
oracle input); if this does not improve the log-likelihood, the rescaled
result is discarded and the original estimate retained, signalled by a
warning in the returned list — the function is total, so no exception is
ever raised. -/
def robustScalingPass {θ : Type} (reOpt : θ → θ) (logl : θ → ℚ) (orig : θ) :
    θ × List String :=
  let rescaled := reOpt orig
  if logl rescaled ≤ logl orig then
    (orig, ["Robust data scaling did not improve logl: retaining original estimate"])
  else (rescaled, [])

/-- A dataset restricted to one sequence list: for each sequence, the list of
its per-outcome observed counts (spec §3: DataSet maps each gate string to
outcome counts). -/
abbrev CountData := List (List ℕ)

/-- The number of outcomes of one sequence with a nonzero observed count. -/
def rowNonzeroCount (row : List ℕ) : ℕ :=
  (row.filter (fun c => c != 0)).length

/-- The claim's quantity, following the spec's words (§8 "Chi-squared degrees
of freedom"): the total number of (sequence, outcome) pairs with a nonzero
observed count. -/
def nonzeroOutcomeCount (ds : CountData) : ℕ :=
  (ds.map rowNonzeroCount).sum

/-- Modelled from the report lines recorded in src: the program's
data-parameter count is the dataset's degrees of freedom — for each
sequence, the number of outcomes with nonzero count minus one (the
per-sequence normalization constraint).  Evidence: src/unnamed/part_000
reports "91 data params" for 92 gate strings of positive total count (and
167 for 168, 1281 for 1282), which is impossible for the total
nonzero-outcome count (at least 92) and matches Σ(#nonzero − 1); the Model
Testing notebook reports 92 for 92 two-outcome sequences, again matching. -/
def dataParamsDOF (ds : CountData) : ℕ :=
  (ds.map (fun row => rowNonzeroCount row - 1)).sum

/-- The fields of the printed per-iteration chi-squared report line
"Sum of Chi^2 = … (X data params - Y model params = expected mean of Z;
p-value = …)". -/
structure FitReport where
  dataParams : ℕ
  modelParams : ℕ
  expectedMean : ℤ

/-- Modelled from the report lines recorded in src: the report's expected
mean (the mean of the chi-squared distribution used for the p-value) is the
data-parameter count minus the model-parameter count, with the
data-parameter count the dataset's per-sequence degrees of freedom
`dataParamsDOF` (not the total nonzero-outcome count the spec's §8 states —
see `dataParamsDOF` for the recorded evidence). -/
def chi2FitReport {n : ℕ} (ds : CountData) (gs : GateSet n) : FitReport :=
  { dataParams := dataParamsDOF ds
    modelParams := gs.num_params
    expectedMean := (dataParamsDOF ds : ℤ) - (gs.num_params : ℤ) }

/-- Modelled from the spec and the warning recorded in src
("Max-model params (92) <= gate set params (92)!  Using k == 1."): the
degrees of freedom `k` used for the goodness-of-fit p-value.  When the
max-model (data) parameter count is not larger than the gate set's parameter
count, `k == 1` is substituted and a warning emitted instead of failing or
using a zero or negative `k`. -/
def pvalueDOF (nDataParams nModelParams : ℕ) : ℕ × List String :=
  if nDataParams ≤ nModelParams then
    (1, ["Max-model params <= gate set params!  Using k == 1."])
  else (nDataParams - nModelParams, [])

/-- The report `gaugeopt_to_target` produces regardless of progress: the
final distance to the target and the iteration count of the search. -/
structure GaugeOptReport where
  finalDist : ℚ
  iterations : ℕ

/-- Modelled from the spec (§4.6): `gaugeopt_to_target`.  The environment of
live models is made explicit as a store (list) of models so that
(non-)mutation is expressible: the function reads the model at index `i`,
appends the gauge-optimized copy `M.transform S(θ*)` as a new entry — it
never writes to an existing entry — and returns the new entry's index
together with the report, even when the search made negligible progress.
The gauge element found by the inner least-squares search and the report are
oracle inputs (the solver operates on floats and is not under src/). -/
def gaugeopt_to_target {n : ℕ} (store : List (GateSet n)) (i : ℕ)
    (found : GaugeElem n) (report : GaugeOptReport) :
    List (GateSet n) × ℕ × GaugeOptReport :=
  match store[i]? with
  | some M => (store ++ [M.transform found], store.length, report)
  | none => (store, i, report)

/-- The identity gauge transformation (zero search progress). -/
def idGauge (n : ℕ) : GaugeElem n :=
  { S := 1, Sinv := 1, inv_right := by rw [mul_one], inv_left := by rw [mul_one] }

/-- C1 (amended): in `do_iterative_mlgst`, for every run with N iterations the
chi-squared objective is optimized at each iteration (each starting from the
previous iteration's result), and at the final iteration only the chi-squared
result is re-optimized under the log-likelihood objective; the
log-likelihood result is kept in place of the chi-squared one unless it
fails to improve the log-likelihood (new log-likelihood at most the old
one), in which case the chi-squared estimate is retained and a warning is
emitted. -/
theorem claim_C1_amended {σ θ : Type} (chi2Opt mlOpt : σ → θ → θ)
    (logl : σ → θ → ℚ) (Ls : List σ) (L : σ) (init : θ) :
    do_iterative_mlgst chi2Opt mlOpt logl (Ls ++ [L]) init =
      (let gChi2 := chi2Opt L (Ls.foldl (fun g s => chi2Opt s g) init)
       let gML := mlOpt L gChi2
       if logl L gML ≤ logl L gChi2 then
         (gChi2, ["MLGST failed to improve logl: retaining chi2-objective estimate"])
       else (gML, [])) := by
  induction Ls generalizing init with
  | nil => rfl
  | cons a as ih =>
    cases h : as ++ [L] with
    | nil => exact absurd h (by simp)
    | cons x xs =>
      show do_iterative_mlgst chi2Opt mlOpt logl (a :: (as ++ [L])) init = _
      rw [h]
      show do_iterative_mlgst chi2Opt mlOpt logl (x :: xs) (chi2Opt a init) = _
      rw [← h, ih (chi2Opt a init)]
      rfl

/-- C1 counterexample: at a concrete run whose final ML re-optimization
lowers the log-likelihood, the driver's result is not the log-likelihood
result (the chi-squared estimate is retained instead), so the claim that the
log-likelihood result is always kept in place of the chi-squared one is
false of the driver. -/
theorem claim_C1_counterexample :
    (do_iterative_mlgst (fun (_ : Unit) (g : ℚ) => g) (fun _ g => g - 1)
        (fun _ g => g) [()] 0).1 ≠
      (fun (_ : Unit) (g : ℚ) => g - 1) ()
        ((fun (_ : Unit) (g : ℚ) => g) () 0) := by
  norm_num [do_iterative_mlgst]

theorem dataParamsDOF_eq_nonzero_sub (ds : CountData) :
    (∀ row ∈ ds, 1 ≤ rowNonzeroCount row) →
    (dataParamsDOF ds : ℤ) = (nonzeroOutcomeCount ds : ℤ) - (ds.length : ℤ) := by
  induction ds with
  | nil =>
    intro _
    simp [dataParamsDOF, nonzeroOutcomeCount]
  | cons r rs ih =>
    intro hpos
    have hr : 1 ≤ rowNonzeroCount r := hpos r (List.mem_cons_self r rs)
    have ih2 := ih (fun row hrow => hpos row (List.mem_cons_of_mem _ hrow))
    unfold dataParamsDOF nonzeroOutcomeCount at ih2 ⊢
    simp only [List.map_cons, List.sum_cons, List.length_cons]
    omega

/-- A minimal model (one CPTP gate, one free parameter) for evaluating the
report on a concrete dataset. -/
def gsC2ex : GateSet 1 :=
  { ident := ![1], preps := [], povms := [], gates := [.cptp [5]] }

/-- C2 counterexample: on a dataset with one sequence whose two outcomes both
have nonzero counts, the reported expected mean (per the recorded report
lines: per-sequence degrees of freedom minus model parameters, here
(2−1) − 1 = 0) differs from the claim's number of outcomes with nonzero
count minus the model's free parameters (2 − 1 = 1), so the claim as stated
is false of the program's reported value. -/
theorem claim_C2_counterexample :
    (chi2FitReport [[500, 500]] gsC2ex).expectedMean ≠
      (nonzeroOutcomeCount [[500, 500]] : ℤ) - (gsC2ex.num_params : ℤ) := by
  decide

/-- C2 (amended): for every dataset and sequence list, the expected-mean
value reported and used in the chi-squared p-value computation equals the
dataset's degrees of freedom — per sequence, the number of outcomes with
nonzero count minus one — minus the model's number of free parameters; when
every sequence has at least one nonzero-count outcome this equals the number
of outcomes with nonzero count, minus the number of sequences, minus the
model's number of free parameters. -/
theorem claim_C2_amended {n : ℕ} (ds : CountData) (gs : GateSet n)
    (hpos : ∀ row ∈ ds, 1 ≤ rowNonzeroCount row) :
    (chi2FitReport ds gs).expectedMean =
      (dataParamsDOF ds : ℤ) - (gs.num_params : ℤ) ∧
    (chi2FitReport ds gs).dataParams = dataParamsDOF ds ∧
    (chi2FitReport ds gs).modelParams = gs.num_params ∧
    (chi2FitReport ds gs).expectedMean =
      (nonzeroOutcomeCount ds : ℤ) - (ds.length : ℤ) - (gs.num_params : ℤ) := by
  refine ⟨rfl, rfl, rfl, ?_⟩
  show (dataParamsDOF ds : ℤ) - (gs.num_params : ℤ) = _
  rw [dataParamsDOF_eq_nonzero_sub ds hpos]

theorem claim_C2_witness :
    (∀ row ∈ ([[2, 3], [0, 5]] : CountData), 1 ≤ rowNonzeroCount row) ∧
    ((chi2FitReport [[2, 3], [0, 5]] gsC2ex).expectedMean =
        (dataParamsDOF [[2, 3], [0, 5]] : ℤ) - (gsC2ex.num_params : ℤ) ∧
      (chi2FitReport [[2, 3], [0, 5]] gsC2ex).dataParams =
        dataParamsDOF [[2, 3], [0, 5]] ∧
      (chi2FitReport [[2, 3], [0, 5]] gsC2ex).modelParams = gsC2ex.num_params ∧
      (chi2FitReport [[2, 3], [0, 5]] gsC2ex).expectedMean =
        (nonzeroOutcomeCount [[2, 3], [0, 5]] : ℤ) -
          (([[2, 3], [0, 5]] : CountData).length : ℤ) - (gsC2ex.num_params : ℤ)) :=
  ⟨by decide, claim_C2_amended [[2, 3], [0, 5]] gsC2ex (by decide)⟩

/-- C3: for every valid Model under every parameterization policy (Full, TP,
CPTP), `from_vector (to_vector M)` reproduces `M` — in particular its
operation matrices, exactly, hence within 1e-10 — and the full parameter
vector has the fixed layout: state preparations, then POVMs/measurements,
then gates. -/
theorem claim_C3 {n : ℕ} (gs : GateSet n) (hwf : gs.wfParams) :
    gs.from_vector gs.to_vector = gs ∧
    (gs.from_vector gs.to_vector).gates.map PGate.matrix =
      gs.gates.map PGate.matrix ∧
    gs.to_vector = (gs.preps.map PSpamVec.to_vector).flatten ++
      (gs.povms.map GateSet.povmToList).flatten ++
      (gs.gates.map PGate.to_vector).flatten := by
  refine ⟨GateSet.model_from_vector_to_vector gs hwf, ?_, rfl⟩
  rw [GateSet.model_from_vector_to_vector gs hwf]

/-- A concrete valid model exercising all three parameterization policies. -/
def gsC3ex : GateSet 2 :=
  { ident := ![1, 0]
    preps := [.tp ![1, 1/2], .full ![1, 3]]
    povms := [[.full ![1/2, 7], .tp ![1/2, -7]]]
    gates := [.full !![1, 2; 3, 4], .tp !![1, 0; 5, 6], .cptp [1, 2, 3]] }

theorem claim_C3_witness :
    gsC3ex.wfParams ∧
    (gsC3ex.from_vector gsC3ex.to_vector = gsC3ex ∧
      (gsC3ex.from_vector gsC3ex.to_vector).gates.map PGate.matrix =
        gsC3ex.gates.map PGate.matrix ∧
      gsC3ex.to_vector = (gsC3ex.preps.map PSpamVec.to_vector).flatten ++
        (gsC3ex.povms.map GateSet.povmToList).flatten ++
        (gsC3ex.gates.map PGate.to_vector).flatten) :=
  ⟨by decide, claim_C3 gsC3ex (by decide)⟩

/-- A Model whose POVM is complete and whose preparation is unit-trace but
whose fully parameterized gate does not preserve the trace functional: the
outcome probabilities of the length-1 gate string sum to 2, not 1. -/
def gsC4bad : GateSet 4 :=
  { ident := ![1, 0, 0, 0]
    preps := [.full ![1, 0, 0, 0]]
    povms := [[.full ![1, 0, 0, 0]]]
    gates := [.full !![2, 0, 0, 0; 0, 1, 0, 0; 0, 0, 1, 0; 0, 0, 0, 1]] }

/-- C4 counterexample: a Model satisfying the data-model invariants (POVM
effects summing to the identity-like vector, unit-trace preparation) whose
gate is not trace preserving has a gate string whose outcome probabilities
do not sum to 1 within 1e-8 — so the claim is false without a
trace-preservation condition on the gates. -/
theorem claim_C4_counterexample :
    (∀ p ∈ gsC4bad.povms, (p.map PSpamVec.vec).sum = gsC4bad.ident) ∧
    (∀ r ∈ gsC4bad.preps, gsC4bad.ident ⬝ᵥ r.vec = 1) ∧
    ¬ (|(GateSet.probList gsC4bad 0 0 [0]).sum - 1| ≤ 1 / 100000000) := by
  refine ⟨?_, ?_, ?_⟩
  · intro p hp
    simp only [gsC4bad, List.mem_singleton] at hp
    subst hp
    funext idx
    fin_cases idx <;> norm_num [PSpamVec.vec, gsC4bad]
  · intro r hr
    simp only [gsC4bad, List.mem_singleton] at hr
    subst hr
    norm_num [PSpamVec.vec, gsC4bad, Matrix.dotProduct, Fin.sum_univ_four]
  · have h2 : (GateSet.probList gsC4bad 0 0 [0]).sum = 2 := by
      simp [GateSet.probList, GateSet.povmEffects, GateSet.prepVec, GateSet.seqProduct,
        GateSet.gateMat, gsC4bad, PSpamVec.vec, PGate.matrix, List.foldl,
        Matrix.mulVec, Matrix.dotProduct, Fin.sum_univ_four]
    rw [h2]
    norm_num

/-- C4 (amended): for every well-formed Model — each POVM's effects summing
to the identity-like vector, unit-trace preparations, and trace-preserving
gates — and every gate string, the returned probabilities sum to 1 (exactly,
hence within 1e-8) over the outcome set of each POVM. -/
theorem claim_C4_amended {n : ℕ} (gs : GateSet n) (hwf : GateSet.WellFormed gs)
    (i k : ℕ) (s : List ℕ) (hi : i < gs.preps.length) (hk : k < gs.povms.length) :
    |(GateSet.probList gs i k s).sum - 1| ≤ 1 / 100000000 := by
  rw [GateSet.probList_sum_eq_one gs hwf i k s hi hk, sub_self, abs_zero]
  norm_num

/-- A concrete well-formed model: complete POVM, unit-trace preparation,
trace-preserving gates. -/
def gsC4good : GateSet 2 :=
  { ident := ![1, 0]
    preps := [.full ![1, 0]]
    povms := [[.full ![1/2, 3], .full ![1/2, -3]]]
    gates := [.full !![1, 0; 0, 1/2], .tp !![1, 0; 4, 5]] }

theorem gsC4good_wellFormed : GateSet.WellFormed gsC4good := by
  refine ⟨?_, ?_, ?_⟩
  · intro p hp
    simp only [gsC4good, List.mem_singleton] at hp
    subst hp
    funext idx
    fin_cases idx <;> norm_num [PSpamVec.vec, gsC4good]
  · intro r hr
    simp only [gsC4good, List.mem_singleton] at hr
    subst hr
    norm_num [PSpamVec.vec, gsC4good, Matrix.dotProduct, Fin.sum_univ_two]
  · intro g hg
    simp only [gsC4good, List.mem_cons, List.mem_singleton, List.not_mem_nil, or_false] at hg
    rcases hg with hg | hg <;> subst hg <;> funext j <;>
      simp [PGate.matrix, Matrix.vecMul, Matrix.dotProduct, Fin.sum_univ_two, gsC4good]

theorem claim_C4_witness :
    (GateSet.WellFormed gsC4good ∧ 0 < gsC4good.preps.length ∧
      0 < gsC4good.povms.length) ∧
    |(GateSet.probList gsC4good 0 0 [0, 1]).sum - 1| ≤ 1 / 100000000 :=
  ⟨⟨gsC4good_wellFormed, by decide, by decide⟩,
    claim_C4_amended gsC4good gsC4good_wellFormed 0 0 [0, 1] (by decide) (by decide)⟩

/-- C5: for every Model, every gauge element of its gauge group, and every
gate string, the outcome probabilities under the transformed model equal
those under the original model within 1e-8 (they are equal exactly). -/
theorem claim_C5 {n : ℕ} (gs : GateSet n) (e : GaugeElem n) (i k : ℕ)
    (s : List ℕ) (o : ℕ) :
    |(GateSet.probList (gs.transform e) i k s).getD o 0 -
      (GateSet.probList gs i k s).getD o 0| ≤ 1 / 100000000 := by
  rw [GateSet.probList_transform, sub_self, abs_zero]
  norm_num

/-- C6: when the robust-data-scaling re-run does not improve the
log-likelihood, the rescaled result is discarded, the original (pre-scaling)
estimate is retained, and the discard is signaled as a warning — the pass is
a total function, so no exception is raised. -/
theorem claim_C6 {θ : Type} (reOpt : θ → θ) (logl : θ → ℚ) (orig : θ)
    (h : logl (reOpt orig) ≤ logl orig) :
    (robustScalingPass reOpt logl orig).1 = orig ∧
    (robustScalingPass reOpt logl orig).2 =
      ["Robust data scaling did not improve logl: retaining original estimate"] := by
  unfold robustScalingPass
  rw [if_pos h]
  exact ⟨rfl, rfl⟩

theorem claim_C6_witness :
    (fun q : ℚ => q) ((fun q : ℚ => q - 1) 0) ≤ (fun q : ℚ => q) 0 ∧
    ((robustScalingPass (fun q : ℚ => q - 1) (fun q => q) 0).1 = 0 ∧
      (robustScalingPass (fun q : ℚ => q - 1) (fun q => q) 0).2 =
        ["Robust data scaling did not improve logl: retaining original estimate"]) :=
  ⟨by norm_num, claim_C6 (fun q => q - 1) (fun q => q) 0 (by norm_num)⟩

/-- C7: `gaugeopt_to_target` never mutates its input model: every
pre-existing store entry (in particular the input model's) is unchanged
after the call, and a new Model — the gauge-transformed copy — is returned
at a fresh index together with the distance/iteration report, even when the
search made negligible progress. -/
theorem claim_C7 {n : ℕ} (store : List (GateSet n)) (i : ℕ)
    (found : GaugeElem n) (report : GaugeOptReport) (hi : i < store.length) :
    (∀ j, j < store.length →
      (gaugeopt_to_target store i found report).1[j]? = store[j]?) ∧
    (gaugeopt_to_target store i found report).2.1 = store.length ∧
    (gaugeopt_to_target store i found report).1[store.length]? =
      some (store[i].transform found) ∧
    (gaugeopt_to_target store i found report).2.2 = report := by
  unfold gaugeopt_to_target
  rw [List.getElem?_eq_getElem hi]
  refine ⟨?_, rfl, ?_, rfl⟩
  · intro j hj
    exact List.getElem?_append_left hj
  · exact List.getElem?_concat_length store (store[i].transform found)

/-- A trivial one-dimensional model used to instantiate the store. -/
def gsC7ex : GateSet 1 :=
  { ident := ![1], preps := [], povms := [], gates := [] }

theorem claim_C7_witness :
    0 < [gsC7ex].length ∧
    ((∀ j, j < [gsC7ex].length →
        (gaugeopt_to_target [gsC7ex] 0 (idGauge 1) ⟨0, 0⟩).1[j]? = [gsC7ex][j]?) ∧
      (gaugeopt_to_target [gsC7ex] 0 (idGauge 1) ⟨0, 0⟩).2.1 = [gsC7ex].length ∧
      (gaugeopt_to_target [gsC7ex] 0 (idGauge 1) ⟨0, 0⟩).1[[gsC7ex].length]? =
        some ([gsC7ex][0].transform (idGauge 1)) ∧
      (gaugeopt_to_target [gsC7ex] 0 (idGauge 1) ⟨0, 0⟩).2.2 = ⟨0, 0⟩) :=
  ⟨by decide, claim_C7 [gsC7ex] 0 (idGauge 1) ⟨0, 0⟩ (by decide)⟩

/-- C8: for every TP-parameterized operation and every setting of its free
parameters (every parameter vector given to `from_vector`), the resulting
gate matrix has first row exactly `[1, 0, ..., 0]`. -/
theorem claim_C8 {n : ℕ} (m : Mat (n + 1)) (v : List ℚ) (j : Fin (n + 1)) :
    ((PGate.tp m).from_vector v).matrix 0 j =
      if j.val = 0 then 1 else 0 := by
  simp [PGate.from_vector, PGate.matrix]

/-- C9: for every sequence whose total count N is 0, the chi-squared and
log-likelihood objective contributions of that sequence are exactly 0 (never
NaN); the division-by-zero / log-of-zero branch is unreachable for
zero-total-count data. -/
theorem claim_C9 (minProbClip : ℚ) (radius : ℝ) (counts : List ℕ)
    (psQ : List ℚ) (psR : List ℝ) (hN : counts.sum = 0) :
    chi2SeqContribution minProbClip counts psQ = 0 ∧
    loglSeqContribution radius counts psR = 0 := by
  constructor
  · apply List.sum_eq_zero
    intro x hx
    obtain ⟨c, _, rfl⟩ := List.mem_map.mp hx
    simp [chi2Term, hN]
  · apply List.sum_eq_zero
    intro x hx
    obtain ⟨c, _, rfl⟩ := List.mem_map.mp hx
    simp [loglTerm, hN]

theorem claim_C9_witness :
    ([0, 0] : List ℕ).sum = 0 ∧
    (chi2SeqContribution (1 / 1000000) [0, 0] [1/2, 1/2] = 0 ∧
      loglSeqContribution (1 / 1000) [0, 0] [1/2, 1/2] = 0) :=
  ⟨rfl, claim_C9 (1 / 1000000) (1 / 1000) [0, 0] [1/2, 1/2] [1/2, 1/2] rfl⟩

/-- C10: whenever the number of data ("max-model") parameters is at most the
gate set's parameter count, the p-value degrees-of-freedom computation
substitutes `k == 1` and emits a warning, rather than failing or using a
zero or negative `k`. -/
theorem claim_C10 (nDataParams nModelParams : ℕ) (h : nDataParams ≤ nModelParams) :
    (pvalueDOF nDataParams nModelParams).1 = 1 ∧
    (pvalueDOF nDataParams nModelParams).2 =
      ["Max-model params <= gate set params!  Using k == 1."] := by
  unfold pvalueDOF
  rw [if_pos h]
  exact ⟨rfl, rfl⟩

theorem claim_C10_witness :
    92 ≤ 92 ∧
    ((pvalueDOF 92 92).1 = 1 ∧
      (pvalueDOF 92 92).2 = ["Max-model params <= gate set params!  Using k == 1."]) :=
  ⟨by decide, claim_C10 92 92 (by decide)⟩

end PyGSTi
